import Mathlib

/-!
# Worldify-materials leaf texture editor: formal model

A shallow embedding of the leaf detection / placement / compositing engine of
the `worldify-materials` repository (files `src/leaf-editor/canvasUtils.ts` and
`src/leaf-editor/LeafTextureEditor.tsx`), together with theorems settling the
specification claims about it.

Conventions:
* JS numbers that only ever hold integer pixel data are modelled as `Nat`
  (with `Int` used where the JS computation can go negative before clamping);
* positions / rotation / scale of placed leaves are JS doubles holding values
  produced by exact rational arithmetic here, modelled as `ℚ`;
* JS `Map` (insertion-ordered) is modelled as an association list;
* `Date.now()` is passed in explicitly as a `now : Nat` parameter;
* canvas pixel surfaces are modelled as `PixBuffer`: dimensions plus a pixel
  lookup function.
-/

namespace Worldify

/-- An RGBA pixel sample, 8 bits per channel (values are kept as `Nat`). -/
structure RGBA where
  r : Nat
  g : Nat
  b : Nat
  a : Nat
deriving DecidableEq, Repr

/-- A pixel surface: dimensions plus pixel lookup, generic in the pixel type
(the canvas 2d surfaces of the source). -/
structure PixBuffer (Pix : Type) where
  width : Nat
  height : Nat
  pix : Nat → Nat → Pix

/-- The closed set of texture layer roles (`LayerType` of `types.ts`, as the
spec fixes it; the editor code matches exactly these variants). -/
inductive LayerType where
  | Color
  | Opacity
  | NormalGL
  | NormalDX
  | Roughness
  | Metalness
  | AmbientOcclusion
deriving DecidableEq, BEq, Repr

/-- A detected leaf bounding box (`LeafBounds` of `types.ts`): integer id and
an axis-aligned box in atlas pixel space. -/
structure LeafBounds where
  id : Nat
  x : Nat
  y : Nat
  width : Nat
  height : Nat
deriving DecidableEq, Repr

/-! ## RegionExtractor: `extractLeafRegion` (canvasUtils.ts lines 10-28) -/

/-- `extractLeafRegion` from `canvasUtils.ts`:
```
const x = Math.max(0, bounds.x - padding);
const y = Math.max(0, bounds.y - padding);
const w = Math.min(bounds.width + padding * 2, sourceCanvas.width - x);
const h = Math.min(bounds.height + padding * 2, sourceCanvas.height - y);
```
followed by a verbatim `drawImage` copy of the source rectangle
`(x, y, w, h)` to the origin of a fresh `w × h` canvas. -/
def extractLeafRegion {Pix : Type} (sourceCanvas : PixBuffer Pix)
    (bounds : LeafBounds) (padding : Nat) : PixBuffer Pix :=
  let x : Int := max 0 ((bounds.x : Int) - padding)
  let y : Int := max 0 ((bounds.y : Int) - padding)
  let w : Int := min ((bounds.width : Int) + padding * 2) (sourceCanvas.width - x)
  let h : Int := min ((bounds.height : Int) + padding * 2) (sourceCanvas.height - y)
  { width := w.toNat
    height := h.toNat
    pix := fun i j => sourceCanvas.pix (x.toNat + i) (y.toNat + j) }

/-- The rectangle the claim describes: expand `bounds` by `padding` on every
side, then clamp the expanded rectangle to `[0, width) × [0, height)` of the
source, and copy those source pixels verbatim.  (Stated from the spec's words,
for comparison with `extractLeafRegion`.) -/
def extractExpandClamp {Pix : Type} (sourceCanvas : PixBuffer Pix)
    (bounds : LeafBounds) (padding : Nat) : PixBuffer Pix :=
  let x0 : Int := max 0 ((bounds.x : Int) - padding)
  let y0 : Int := max 0 ((bounds.y : Int) - padding)
  let x1 : Int := min (sourceCanvas.width : Int) ((bounds.x : Int) + bounds.width + padding)
  let y1 : Int := min (sourceCanvas.height : Int) ((bounds.y : Int) + bounds.height + padding)
  { width := (x1 - x0).toNat
    height := (y1 - y0).toNat
    pix := fun i j => sourceCanvas.pix (x0.toNat + i) (y0.toNat + j) }

/-- A concrete 100 × 100 source surface used in concrete evaluations. -/
def demoSource : PixBuffer Nat :=
  { width := 100, height := 100, pix := fun x y => x + 100 * y }

/-! ## PlacementModel (LeafTextureEditor.tsx) -/

/-- A placed-leaf instance id as the editor builds it from `Date.now()`:
`bulk t i` is the string `leaf_{t}_{i}` produced by `autoAddAllLeaves` and
`addLeavesToOutput` (timestamp plus loop index), `dup t` is the string
`leaf_{t}` produced by `duplicateSelectedLeaf` (timestamp only). -/
inductive LeafId where
  | bulk (time : Nat) (index : Nat)
  | dup (time : Nat)
deriving DecidableEq, BEq, Repr

/-- A placed leaf instance (`PlacedLeaf` of `types.ts`): position, rotation,
scale and flips, plus the id of the `LeafBounds` it was cut from. -/
structure PlacedLeaf where
  id : LeafId
  sourceId : Nat
  x : ℚ
  y : ℚ
  rotation : ℚ
  scale : ℚ
  flipX : Bool
  flipY : Bool
deriving DecidableEq, Repr

/-- `Partial<PlacedLeaf>`: the update objects handed to
`updateSelectedLeaf`; absent fields are `none`. -/
structure PlacedLeafUpdate where
  id : Option LeafId := none
  sourceId : Option Nat := none
  x : Option ℚ := none
  y : Option ℚ := none
  rotation : Option ℚ := none
  scale : Option ℚ := none
  flipX : Option Bool := none
  flipY : Option Bool := none
deriving DecidableEq, Repr

/-- The JS spread `{ ...leaf, ...updates }`: every field present in the
update replaces the field of the leaf, absent fields are kept. -/
def mergeUpdate (l : PlacedLeaf) (u : PlacedLeafUpdate) : PlacedLeaf :=
  { id := u.id.getD l.id
    sourceId := u.sourceId.getD l.sourceId
    x := u.x.getD l.x
    y := u.y.getD l.y
    rotation := u.rotation.getD l.rotation
    scale := u.scale.getD l.scale
    flipX := u.flipX.getD l.flipX
    flipY := u.flipY.getD l.flipY }

/-- `updateSelectedLeaf` (LeafTextureEditor.tsx lines 491-498): if nothing is
selected, no change; otherwise map the spread-merge over the list, touching
exactly the leaves whose id equals the selected id. -/
def updateSelectedLeaf (leaves : List PlacedLeaf) (selected : Option LeafId)
    (u : PlacedLeafUpdate) : List PlacedLeaf :=
  match selected with
  | none => leaves
  | some sid => leaves.map fun l => if l.id = sid then mergeUpdate l u else l

/-- `deleteSelectedLeaf` (lines 500-505): filter out the selected id. -/
def deleteSelectedLeaf (leaves : List PlacedLeaf) (selected : Option LeafId) :
    List PlacedLeaf :=
  match selected with
  | none => leaves
  | some sid => leaves.filter fun l => l.id ≠ sid

/-- The clone `duplicateSelectedLeaf` builds: same fields as the original,
fresh id `leaf_{Date.now()}`, position offset by the fixed `(50, 50)`. -/
def cloneLeaf (original : PlacedLeaf) (now : Nat) : PlacedLeaf :=
  { original with id := LeafId.dup now, x := original.x + 50, y := original.y + 50 }

/-- `duplicateSelectedLeaf` (lines 507-523): look up the selected instance,
append its clone at the end of the list and select the clone.  Returns the
new list together with the new selection. -/
def duplicateSelectedLeaf (leaves : List PlacedLeaf) (selected : Option LeafId)
    (now : Nat) : List PlacedLeaf × Option LeafId :=
  match selected with
  | none => (leaves, selected)
  | some sid =>
    match leaves.find? (fun l => l.id == sid) with
    | none => (leaves, selected)
    | some original =>
      let newLeaf := cloneLeaf original now
      (leaves ++ [newLeaf], some newLeaf.id)

/-- A concrete placed instance used in counterexamples and witnesses. -/
def c6Leaf : PlacedLeaf :=
  { id := LeafId.dup 0, sourceId := 0, x := 0, y := 0, rotation := 0,
    scale := 1, flipX := false, flipY := false }

/-- The output canvas size constant `OUTPUT_SIZE` (line 21). -/
def OUTPUT_SIZE : Nat := 1024

/-- Search upward from `c` (with enough fuel) for the least `r ≥ c` with
`n ≤ r * r`. -/
def ceilSqrtGo (n : Nat) : Nat → Nat → Nat
  | c, 0 => c
  | c, fuel + 1 => if n ≤ c * c then c else ceilSqrtGo n (c + 1) fuel

/-- `Math.ceil(Math.sqrt n)` for a natural `n`: the least `r` with
`n ≤ r * r` (see `ceilSqrt_least`). -/
def ceilSqrt (n : Nat) : Nat := ceilSqrtGo n 0 n

/-- The grid cell a bulk-placed instance with loop index `index` receives,
given the column count and spacing (`x = spacing·(col+1)`,
`y = spacing·(row+1)` with `col = index % cols`, `row = index / cols`). -/
def gridPlaced (now : Nat) (index : Nat) (srcId : Nat) (cols : Nat)
    (spacing : ℚ) : PlacedLeaf :=
  { id := LeafId.bulk now index
    sourceId := srcId
    x := spacing * (((index % cols : Nat) : ℚ) + 1)
    y := spacing * (((index / cols : Nat) : ℚ) + 1)
    rotation := 0
    scale := 1
    flipX := false
    flipY := false }

/-- `autoAddAllLeaves` (lines 79-100), placement part: place every detected
leaf on a `ceil (sqrt N)`-column grid with spacing `OUTPUT_SIZE / (cols+1)`,
rotation 0, scale 1, no flips. -/
def autoAddAllLeaves (leaves : List LeafBounds) (now : Nat) : List PlacedLeaf :=
  let cols := ceilSqrt leaves.length
  let spacing : ℚ := (OUTPUT_SIZE : ℚ) / (cols + 1)
  leaves.enum.map fun p => gridPlaced now p.1 p.2.id cols spacing

/-- The loop of `addLeavesToOutput` (lines 457-489): walk the selected leaf
ids, skip the ones that resolve to no `LeafBounds`, and give each placed one
the next grid cell (the loop index only advances on placed leaves). -/
def addLeavesGo (bounds : List LeafBounds) (now : Nat) (cols : Nat)
    (spacing : ℚ) : List Nat → Nat → List PlacedLeaf
  | [], _ => []
  | leafId :: rest, index =>
    match bounds.find? (fun b => b.id == leafId) with
    | none => addLeavesGo bounds now cols spacing rest index
    | some _ =>
      gridPlaced now index leafId cols spacing ::
        addLeavesGo bounds now cols spacing rest (index + 1)

/-- `addLeavesToOutput` (lines 457-489): the new instances appended to the
placed list; `cols` is computed from the size of the selected id set. -/
def addLeavesToOutput (selectedLeafIds : List Nat) (bounds : List LeafBounds)
    (now : Nat) : List PlacedLeaf :=
  let cols := ceilSqrt selectedLeafIds.length
  let spacing : ℚ := (OUTPUT_SIZE : ℚ) / (cols + 1)
  addLeavesGo bounds now cols spacing selectedLeafIds 0

end Worldify

namespace Worldify

/-- Invariant of the upward search `ceilSqrtGo`: starting below every
solution with enough fuel to reach one, it returns the least `r` with
`n ≤ r * r`. -/
theorem ceilSqrtGo_least (n : Nat) :
    ∀ (fuel c : Nat), (∀ b, b < c → ¬ n ≤ b * b) →
      n ≤ (c + fuel) * (c + fuel) →
      n ≤ ceilSqrtGo n c fuel * ceilSqrtGo n c fuel ∧
        ∀ b, n ≤ b * b → ceilSqrtGo n c fuel ≤ b := by
  intro fuel
  induction fuel with
  | zero =>
    intro c hlow hhigh
    refine ⟨by simpa using hhigh, fun b hb => ?_⟩
    by_contra hc
    push_neg at hc
    exact hlow b (by simpa [ceilSqrtGo] using hc) hb
  | succ fuel ih =>
    intro c hlow hhigh
    by_cases h : n ≤ c * c
    · simp only [ceilSqrtGo, if_pos h]
      refine ⟨h, fun b hb => ?_⟩
      by_contra hc
      push_neg at hc
      exact hlow b hc hb
    · simp only [ceilSqrtGo, if_neg h]
      refine ih (c + 1) ?_ ?_
      · intro b hb
        rcases Nat.lt_succ_iff_lt_or_eq.mp hb with h1 | h1
        · exact hlow b h1
        · subst h1; exact h
      · have : c + 1 + fuel = c + (fuel + 1) := by omega
        rw [this]; exact hhigh

/-- `ceilSqrt n` is the least natural `r` with `n ≤ r * r`, i.e. exactly
`Math.ceil (Math.sqrt n)` for a natural `n`. -/
theorem ceilSqrt_least (n : Nat) :
    n ≤ ceilSqrt n * ceilSqrt n ∧ ∀ c, n ≤ c * c → ceilSqrt n ≤ c := by
  refine ceilSqrtGo_least n n 0 (fun b hb => absurd hb (Nat.not_lt_zero b)) ?_
  rcases Nat.eq_zero_or_pos n with h | h
  · simp [h]
  · simpa using Nat.mul_le_mul_left n h

/-- The loop of `addLeavesToOutput`, when every selected id resolves to a
bounds entry, places the `i`-th selected id in the `(start + i)`-th grid
cell. -/
theorem addLeavesGo_resolved (bounds : List LeafBounds) (now cols : Nat)
    (spacing : ℚ) :
    ∀ (sel : List Nat) (k : Nat),
      (∀ id ∈ sel, (bounds.find? (fun b => b.id == id)).isSome) →
      addLeavesGo bounds now cols spacing sel k =
        (sel.enumFrom k).map fun p => gridPlaced now p.1 p.2 cols spacing := by
  intro sel
  induction sel with
  | nil => intro k _; rfl
  | cons leafId rest ih =>
    intro k h
    have h1 : (bounds.find? (fun b => b.id == leafId)).isSome :=
      h leafId (by simp)
    obtain ⟨b, hb⟩ := Option.isSome_iff_exists.mp h1
    simp only [addLeavesGo, hb, List.enumFrom, List.map]
    exact congrArg _ (ih (k + 1) fun i hi => h i (by simp [hi]))

/-- Concrete detected-bounds lists used to check grid placement at
`N = 1, 4, 5, 9`. -/
def demoLeaves1 : List LeafBounds := [⟨0, 0, 0, 1, 1⟩]

/-- Four concrete bounds. -/
def demoLeaves4 : List LeafBounds :=
  [⟨0, 0, 0, 1, 1⟩, ⟨1, 0, 0, 1, 1⟩, ⟨2, 0, 0, 1, 1⟩, ⟨3, 0, 0, 1, 1⟩]

/-- Five concrete bounds. -/
def demoLeaves5 : List LeafBounds :=
  [⟨0, 0, 0, 1, 1⟩, ⟨1, 0, 0, 1, 1⟩, ⟨2, 0, 0, 1, 1⟩, ⟨3, 0, 0, 1, 1⟩,
   ⟨4, 0, 0, 1, 1⟩]

/-- Nine concrete bounds. -/
def demoLeaves9 : List LeafBounds :=
  [⟨0, 0, 0, 1, 1⟩, ⟨1, 0, 0, 1, 1⟩, ⟨2, 0, 0, 1, 1⟩, ⟨3, 0, 0, 1, 1⟩,
   ⟨4, 0, 0, 1, 1⟩, ⟨5, 0, 0, 1, 1⟩, ⟨6, 0, 0, 1, 1⟩, ⟨7, 0, 0, 1, 1⟩,
   ⟨8, 0, 0, 1, 1⟩]

/-- C3: bulk add places instance `i` (0-indexed, row-major over input order)
at `(spacing·(i % cols + 1), spacing·(i / cols + 1))` with
`cols = ceil (sqrt N)` (the least `r` with `N ≤ r²`) and
`spacing = OUTPUT_SIZE / (cols + 1)`, rotation 0, scale 1, no flips — for
`autoAddAllLeaves` unconditionally, and for `addLeavesToOutput` whenever
every selected id resolves to a bounds entry; and the exact coordinates hold
at `N = 1, 4, 5, 9` (`OUTPUT_SIZE = 1024`). -/
theorem c3_grid_placement :
    (∀ n, n ≤ ceilSqrt n * ceilSqrt n ∧ ∀ c, n ≤ c * c → ceilSqrt n ≤ c) ∧
    (∀ now i srcId cols spacing,
      (gridPlaced now i srcId cols spacing).x = spacing * ((i % cols : Nat) + 1) ∧
      (gridPlaced now i srcId cols spacing).y = spacing * ((i / cols : Nat) + 1) ∧
      (gridPlaced now i srcId cols spacing).rotation = 0 ∧
      (gridPlaced now i srcId cols spacing).scale = 1 ∧
      (gridPlaced now i srcId cols spacing).flipX = false ∧
      (gridPlaced now i srcId cols spacing).flipY = false) ∧
    (∀ (leaves : List LeafBounds) (now i : Nat),
      (autoAddAllLeaves leaves now)[i]? = leaves[i]?.map fun b =>
        gridPlaced now i b.id (ceilSqrt leaves.length)
          ((OUTPUT_SIZE : ℚ) / (ceilSqrt leaves.length + 1))) ∧
    (∀ (sel : List Nat) (bounds : List LeafBounds) (now : Nat),
      (∀ id ∈ sel, (bounds.find? (fun b => b.id == id)).isSome) →
      addLeavesToOutput sel bounds now = sel.enum.map fun p =>
        gridPlaced now p.1 p.2 (ceilSqrt sel.length)
          ((OUTPUT_SIZE : ℚ) / (ceilSqrt sel.length + 1))) ∧
    (autoAddAllLeaves demoLeaves1 0).map (fun p => (p.x, p.y)) = [(512, 512)] ∧
    (autoAddAllLeaves demoLeaves4 0).map (fun p => (p.x, p.y)) =
      [(1024/3, 1024/3), (2048/3, 1024/3), (1024/3, 2048/3), (2048/3, 2048/3)] ∧
    (autoAddAllLeaves demoLeaves5 0).map (fun p => (p.x, p.y)) =
      [(256, 256), (512, 256), (768, 256), (256, 512), (512, 512)] ∧
    (autoAddAllLeaves demoLeaves9 0).map (fun p => (p.x, p.y)) =
      [(256, 256), (512, 256), (768, 256), (256, 512), (512, 512), (768, 512),
       (256, 768), (512, 768), (768, 768)] := by
  refine ⟨ceilSqrt_least, fun now i srcId cols spacing => ⟨rfl, rfl, rfl, rfl, rfl, rfl⟩,
    ?_, ?_, ?_, ?_, ?_, ?_⟩
  · intro leaves now i
    simp [autoAddAllLeaves, List.getElem?_map, List.getElem?_enum, Option.map_map]
    rfl
  · intro sel bounds now h
    simpa [addLeavesToOutput, List.enum] using
      addLeavesGo_resolved bounds now (ceilSqrt sel.length)
        ((OUTPUT_SIZE : ℚ) / (ceilSqrt sel.length + 1)) sel 0 h
  · simp [autoAddAllLeaves, gridPlaced, demoLeaves1, List.enum, List.enumFrom,
      ceilSqrt, ceilSqrtGo, OUTPUT_SIZE]
    norm_num
  · simp [autoAddAllLeaves, gridPlaced, demoLeaves4, List.enum, List.enumFrom,
      ceilSqrt, ceilSqrtGo, OUTPUT_SIZE]
    norm_num
  · simp [autoAddAllLeaves, gridPlaced, demoLeaves5, List.enum, List.enumFrom,
      ceilSqrt, ceilSqrtGo, OUTPUT_SIZE]
    norm_num
  · simp [autoAddAllLeaves, gridPlaced, demoLeaves9, List.enum, List.enumFrom,
      ceilSqrt, ceilSqrtGo, OUTPUT_SIZE]
    norm_num

/-- Closed instance of `c3_grid_placement`: selected ids `[7, 3]` (both of
which resolve), `N = 2`, so `cols = 2`, `spacing = 1024/3`; the two
instances land at `(1024/3, 1024/3)` and `(2048/3, 1024/3)`. -/
theorem c3_witness :
    (∀ id ∈ [7, 3], (([⟨3, 0, 0, 1, 1⟩, ⟨7, 0, 0, 1, 1⟩] :
        List LeafBounds).find? (fun b => b.id == id)).isSome) ∧
    addLeavesToOutput [7, 3] [⟨3, 0, 0, 1, 1⟩, ⟨7, 0, 0, 1, 1⟩] 2 =
      [gridPlaced 2 0 7 2 ((1024 : ℚ) / 3), gridPlaced 2 1 3 2 ((1024 : ℚ) / 3)] := by
  have h : ∀ id ∈ [7, 3], (([⟨3, 0, 0, 1, 1⟩, ⟨7, 0, 0, 1, 1⟩] :
      List LeafBounds).find? (fun b => b.id == id)).isSome := by decide
  refine ⟨h, ?_⟩
  have := c3_grid_placement.2.2.2.1 [7, 3] [⟨3, 0, 0, 1, 1⟩, ⟨7, 0, 0, 1, 1⟩] 2 h
  rw [this]
  norm_num [List.enum, List.enumFrom, ceilSqrt, ceilSqrtGo, OUTPUT_SIZE]

/-! ## Compositor, combined-preview masking (LeafTextureEditor.tsx 308-333) -/

/-- JS `Math.round(v / 255)` for a natural `v`, as the integer it produces:
`v / 255` is never exactly halfway between integers and the double rounding
error cannot bridge the gap, so the result is `⌊v / 255 + 1/2⌋ =
(2v + 255) / 510` in natural division (see `jsRound_eq_round`). -/
def jsRoundDiv255 (v : Nat) : Nat := (2 * v + 255) / 510

/-- `jsRoundDiv255` agrees with mathematical rounding of `v / 255`. -/
theorem jsRound_eq_round (v : Nat) : (jsRoundDiv255 v : ℤ) = round ((v : ℚ) / 255) := by
  rw [round_eq]
  have harg : (v : ℚ) / 255 + 1 / 2 = ((2 * v + 255 : ℕ) : ℚ) / 510 := by
    push_cast; ring
  rw [harg, eq_comm, Int.floor_eq_iff]
  have hq1 : jsRoundDiv255 v * 510 ≤ 2 * v + 255 := by
    simpa [jsRoundDiv255] using Nat.div_mul_le_self (2 * v + 255) 510
  have hq2 : 2 * v + 255 < (jsRoundDiv255 v + 1) * 510 := by
    have h1 := Nat.div_add_mod (2 * v + 255) 510
    have h2 := Nat.mod_lt (2 * v + 255) (by norm_num : 0 < 510)
    simp only [jsRoundDiv255]
    omega
  constructor
  · rw [le_div_iff₀ (by norm_num : (0:ℚ) < 510)]
    exact_mod_cast hq1
  · rw [div_lt_iff₀ (by norm_num : (0:ℚ) < 510)]
    exact_mod_cast hq2

/-- The masked alpha of the combined-preview loop (line 327):
`Math.round((colorData.data[i + 3] * opacityData.data[i]) / 255)`. -/
def maskAlpha (colorA opacityR : Nat) : Nat := jsRoundDiv255 (colorA * opacityR)

/-- The combined-preview masking loop over a leaf's Color and Opacity
buffers (lines 325-328), pixel-wise over the sample index: the color
samples are kept and the alpha is replaced by
`round(colorAlpha × opacityRed / 255)`. -/
def combineMask (colorData opacityData : Nat → RGBA) : Nat → RGBA :=
  fun i => { colorData i with a := maskAlpha (colorData i).a (opacityData i).r }

/-- C4: in combined-preview mode the masked buffer drawn for a leaf whose
Color and Opacity buffers both exist keeps the color samples and has alpha
`round(colorAlpha × opacityRed / 255)` — the color buffer's existing alpha
multiplied sample-wise by the opacity buffer's red sample — and for
`colorAlpha = 200`, `opacityRed = 128` the result is `100`. -/
theorem c4_combined_mask :
    (∀ (colorData opacityData : Nat → RGBA) (i : Nat),
      (combineMask colorData opacityData i).r = (colorData i).r ∧
      (combineMask colorData opacityData i).g = (colorData i).g ∧
      (combineMask colorData opacityData i).b = (colorData i).b ∧
      (combineMask colorData opacityData i).a =
        maskAlpha (colorData i).a (opacityData i).r) ∧
    (∀ colorA opacityR : Nat,
      (maskAlpha colorA opacityR : ℤ) =
        round (((colorA : ℚ) * opacityR) / 255)) ∧
    maskAlpha 200 128 = 100 := by
  refine ⟨fun c o i => ⟨rfl, rfl, rfl, rfl⟩, ?_, by decide⟩
  intro a o
  have h := jsRound_eq_round (a * o)
  simpa [maskAlpha, Nat.cast_mul] using h

/-! ## ExportPipeline, remote persistence (LeafTextureEditor.tsx 583-615) -/

/-- The printable name of a layer type, as used in generated file names. -/
def layerTypeName : LayerType → String
  | .Color => "Color"
  | .Opacity => "Opacity"
  | .NormalGL => "NormalGL"
  | .NormalDX => "NormalDX"
  | .Roughness => "Roughness"
  | .Metalness => "Metalness"
  | .AmbientOcclusion => "AmbientOcclusion"

/-- The generated file name of a layer: `{folderName}_{layerType}.png`. -/
def exportFileName (folderName : String) (lt : LayerType) : String :=
  folderName ++ "_" ++ layerTypeName lt ++ ".png"

/-- The submission loop of `exportToSources`: encode and submit each layer
in order; the first failed submission aborts the loop with the error message
`Failed to save {fileName}`.  `submit` is the external endpoint: `true` for
an ok response.  Returns the delivered file names in order, plus the error
message if the attempt failed. -/
def exportGo (folderName : String) (submit : String → Bool) :
    List LayerType → List String → List String × Option String
  | [], delivered => (delivered, none)
  | lt :: rest, delivered =>
    let fn := exportFileName folderName lt
    if submit fn then exportGo folderName submit rest (delivered ++ [fn])
    else (delivered, some ("Failed to save " ++ fn))

/-- `exportToSources` (lines 583-615), remote-persistence attempt over the
atlas's layer types in map order. -/
def exportToSources (folderName : String) (layers : List LayerType)
    (submit : String → Bool) : List String × Option String :=
  exportGo folderName submit layers []

/-- A run of successful submissions just accumulates its file names. -/
theorem exportGo_ok (folderName : String) (submit : String → Bool)
    (rest : List LayerType) :
    ∀ (pre : List LayerType) (delivered : List String),
      (∀ lt ∈ pre, submit (exportFileName folderName lt) = true) →
      exportGo folderName submit (pre ++ rest) delivered =
        exportGo folderName submit rest
          (delivered ++ pre.map (exportFileName folderName)) := by
  intro pre
  induction pre with
  | nil => intro delivered _; simp
  | cons lt pre ih =>
    intro delivered h
    simp only [List.cons_append, exportGo, List.append_eq, if_pos (h lt (by simp))]
    rw [ih (delivered ++ [exportFileName folderName lt])
      fun x hx => h x (by simp [hx])]
    simp

/-- C8: within one remote-persistence attempt, submissions run strictly in
layer order; if the submission for layer `f` fails after the layers of
`pre` all succeeded, then exactly the files of `pre` were delivered (in
order, and they stay delivered — no rollback), no layer after `f` is
submitted, and the reported failure names `f`'s file.  If every submission
succeeds, every layer's file is delivered in order and no failure is
reported. -/
theorem c8_sequential_abort :
    (∀ (folderName : String) (submit : String → Bool)
        (pre : List LayerType) (f : LayerType) (post : List LayerType),
      (∀ lt ∈ pre, submit (exportFileName folderName lt) = true) →
      submit (exportFileName folderName f) = false →
      exportToSources folderName (pre ++ f :: post) submit =
        (pre.map (exportFileName folderName),
          some ("Failed to save " ++ exportFileName folderName f))) ∧
    (∀ (folderName : String) (submit : String → Bool)
        (layers : List LayerType),
      (∀ lt ∈ layers, submit (exportFileName folderName lt) = true) →
      exportToSources folderName layers submit =
        (layers.map (exportFileName folderName), none)) := by
  constructor
  · intro folderName submit pre f post hpre hf
    rw [exportToSources, exportGo_ok folderName submit (f :: post) pre [] hpre]
    simp [exportGo, hf]
  · intro folderName submit layers h
    rw [exportToSources,
      show layers = layers ++ [] by simp,
      exportGo_ok folderName submit [] layers [] (by simpa using h)]
    simp [exportGo]

/-- Closed instance of `c8_sequential_abort`: exporting layers
`[Color, Opacity, NormalGL]` of folder `leaves` against an endpoint that
rejects the Opacity file delivers exactly `leaves_Color.png`, reports
`Failed to save leaves_Opacity.png`, and never submits the NormalGL file. -/
theorem c8_witness :
    (∀ lt ∈ [LayerType.Color],
      (fun s => s ≠ "leaves_Opacity.png" : String → Bool)
        (exportFileName "leaves" lt) = true) ∧
    (fun s => s ≠ "leaves_Opacity.png" : String → Bool)
      (exportFileName "leaves" LayerType.Opacity) = false ∧
    exportToSources "leaves"
        ([LayerType.Color] ++ LayerType.Opacity :: [LayerType.NormalGL])
        (fun s => s ≠ "leaves_Opacity.png") =
      (["leaves_Color.png"], some "Failed to save leaves_Opacity.png") := by
  have h1 : ∀ lt ∈ [LayerType.Color],
      (fun s => s ≠ "leaves_Opacity.png" : String → Bool)
        (exportFileName "leaves" lt) = true := by
    intro lt hlt
    rw [List.mem_singleton] at hlt
    subst hlt
    decide
  have h2 : (fun s => s ≠ "leaves_Opacity.png" : String → Bool)
      (exportFileName "leaves" LayerType.Opacity) = false := by decide
  refine ⟨h1, h2, ?_⟩
  rw [c8_sequential_abort.1 "leaves" (fun s => s ≠ "leaves_Opacity.png")
    [LayerType.Color] LayerType.Opacity [LayerType.NormalGL] h1 h2]
  rfl

/-! ## Compositor rendering loops (canvasUtils.ts 92-104,
LeafTextureEditor.tsx 550-561) -/

/-- `extractedLeaves.get(sourceId)`: association-list lookup modelling the
insertion-ordered JS `Map<number, Map<LayerType, canvas>>`. -/
def lookupExtracted {Canvas : Type}
    (extracted : List (Nat × List (LayerType × Canvas))) (sourceId : Nat) :
    Option (List (LayerType × Canvas)) :=
  (extracted.find? fun e => e.1 == sourceId).map (·.2)

/-- `leafLayers.get(layerType)`: association-list lookup in one leaf's
per-layer canvas map. -/
def lookupLayer {Canvas : Type} (leafLayers : List (LayerType × Canvas))
    (layerType : LayerType) : Option Canvas :=
  (leafLayers.find? fun e => e.1 == layerType).map (·.2)

/-- The drawing loop of `renderOutput` (canvasUtils.ts 92-104): fold over the
placed leaves in z-order; for each, resolve the bounds entry, then the
extracted per-layer map, then the requested layer's canvas, and skip the
instance if any of the three is missing; otherwise draw it over the buffer
built so far.  `draw` abstracts `drawPlacedLeaf` (the rasterizer) and `bg`
the background-filled initial canvas; the fail-soft claims proved here hold
for every `draw` and `bg`. -/
def renderOutput {Buf Canvas : Type}
    (draw : Buf → PlacedLeaf → Canvas → LeafBounds → Buf) (bg : Buf)
    (placedLeaves : List PlacedLeaf) (leafBounds : List LeafBounds)
    (extracted : List (Nat × List (LayerType × Canvas)))
    (layerType : LayerType) : Buf :=
  placedLeaves.foldl
    (fun buf placed =>
      match leafBounds.find? (fun b => b.id == placed.sourceId) with
      | none => buf
      | some bounds =>
        match lookupExtracted extracted placed.sourceId with
        | none => buf
        | some leafLayers =>
          match lookupLayer leafLayers layerType with
          | none => buf
          | some leafCanvas => draw buf placed leafCanvas bounds)
    bg

/-- The per-layer drawing loop of `generateExportCanvases`
(LeafTextureEditor.tsx 550-561): same skip logic as `renderOutput`, with the
lookups in the export code's order (extracted map, then layer canvas, then
bounds). -/
def generateExportLayer {Buf Canvas : Type}
    (draw : Buf → PlacedLeaf → Canvas → LeafBounds → Buf) (bg : Buf)
    (placedLeaves : List PlacedLeaf) (leafBounds : List LeafBounds)
    (extracted : List (Nat × List (LayerType × Canvas)))
    (layerType : LayerType) : Buf :=
  placedLeaves.foldl
    (fun buf placed =>
      match lookupExtracted extracted placed.sourceId with
      | none => buf
      | some leafLayers =>
        match lookupLayer leafLayers layerType with
        | none => buf
        | some leafCanvas =>
          match leafBounds.find? (fun b => b.id == placed.sourceId) with
          | none => buf
          | some bounds => draw buf placed leafCanvas bounds)
    bg

/-- Whether a placed instance resolves, for a given layer type, to both a
bounds entry and an extracted canvas — the condition rendering requires. -/
def resolves {Canvas : Type} (placed : PlacedLeaf) (leafBounds : List LeafBounds)
    (extracted : List (Nat × List (LayerType × Canvas)))
    (layerType : LayerType) : Prop :=
  (leafBounds.find? fun b => b.id == placed.sourceId).isSome ∧
    ((lookupExtracted extracted placed.sourceId).bind
      fun leafLayers => lookupLayer leafLayers layerType).isSome

instance {Canvas : Type} (placed : PlacedLeaf) (leafBounds : List LeafBounds)
    (extracted : List (Nat × List (LayerType × Canvas)))
    (layerType : LayerType) :
    Decidable (resolves placed leafBounds extracted layerType) := by
  unfold resolves
  infer_instance

/-- C1: rendering is fail-soft.  In both the interactive composite
(`renderOutput`) and the per-layer export composite (`generateExportLayer`),
a placed instance whose `sourceId` does not resolve to both a bounds entry
and an extracted canvas for the requested layer contributes nothing: the
output with that instance in the list equals the output with it removed,
every other instance is processed exactly as before, and both functions are
total (no error is raised). -/
theorem c1_render_skips_unresolved {Buf Canvas : Type}
    (draw : Buf → PlacedLeaf → Canvas → LeafBounds → Buf) (bg : Buf)
    (pre post : List PlacedLeaf) (placed : PlacedLeaf)
    (leafBounds : List LeafBounds)
    (extracted : List (Nat × List (LayerType × Canvas)))
    (layerType : LayerType)
    (h : ¬ resolves placed leafBounds extracted layerType) :
    renderOutput draw bg (pre ++ placed :: post) leafBounds extracted layerType =
      renderOutput draw bg (pre ++ post) leafBounds extracted layerType ∧
    generateExportLayer draw bg (pre ++ placed :: post) leafBounds extracted
        layerType =
      generateExportLayer draw bg (pre ++ post) leafBounds extracted layerType := by
  have hstep : ∀ (buf : Buf),
      (match leafBounds.find? (fun b => b.id == placed.sourceId) with
        | none => buf
        | some bounds =>
          match lookupExtracted extracted placed.sourceId with
          | none => buf
          | some leafLayers =>
            match lookupLayer leafLayers layerType with
            | none => buf
            | some leafCanvas => draw buf placed leafCanvas bounds) = buf := by
    intro buf
    rw [resolves, not_and_or] at h
    rcases hfind : leafBounds.find? (fun b => b.id == placed.sourceId) with _ | bounds
    · simp only [hfind]
    · rcases hext : lookupExtracted extracted placed.sourceId with _ | leafLayers
      · simp only [hfind, hext]
      · rcases hlay : lookupLayer leafLayers layerType with _ | leafCanvas
        · simp only [hfind, hext, hlay]
        · exfalso
          rcases h with h | h
          · rw [hfind] at h; exact h rfl
          · rw [hext] at h; simp [hlay] at h
  have hstep2 : ∀ (buf : Buf),
      (match lookupExtracted extracted placed.sourceId with
        | none => buf
        | some leafLayers =>
          match lookupLayer leafLayers layerType with
          | none => buf
          | some leafCanvas =>
            match leafBounds.find? (fun b => b.id == placed.sourceId) with
            | none => buf
            | some bounds => draw buf placed leafCanvas bounds) = buf := by
    intro buf
    rw [resolves, not_and_or] at h
    rcases hext : lookupExtracted extracted placed.sourceId with _ | leafLayers
    · simp only [hext]
    · rcases hlay : lookupLayer leafLayers layerType with _ | leafCanvas
      · simp only [hext, hlay]
      · rcases hfind : leafBounds.find? (fun b => b.id == placed.sourceId) with _ | bounds
        · simp only [hext, hlay, hfind]
        · exfalso
          rcases h with h | h
          · rw [hfind] at h; exact h rfl
          · rw [hext] at h; simp [hlay] at h
  constructor
  · simp only [renderOutput, List.foldl_append, List.foldl_cons]
    rw [hstep]
  · simp only [generateExportLayer, List.foldl_append, List.foldl_cons]
    rw [hstep2]

/-- A two-entry extracted-leaf cache used by the `c1` witness: leaf 0 has a
Color canvas, nothing else. -/
def demoExtracted : List (Nat × List (LayerType × Nat)) :=
  [(0, [(LayerType.Color, 77)])]

/-- Closed instance of `c1_render_skips_unresolved`: with only leaf 0
extracted and bounds known only for leaf 0, a placed instance referring to
the stale sourceId 9 is skipped by both composites — the count-the-draws
renderer gives the same count with and without it. -/
theorem c1_witness :
    ¬ resolves { c6Leaf with sourceId := 9 } [⟨0, 0, 0, 10, 10⟩] demoExtracted
        LayerType.Color ∧
    renderOutput (fun b _ _ _ => b + 1) 0
        [c6Leaf, { c6Leaf with sourceId := 9 }] [⟨0, 0, 0, 10, 10⟩] demoExtracted
        LayerType.Color =
      renderOutput (fun b _ _ _ => b + 1) 0 [c6Leaf] [⟨0, 0, 0, 10, 10⟩]
        demoExtracted LayerType.Color := by
  have h : ¬ resolves { c6Leaf with sourceId := 9 } [⟨0, 0, 0, 10, 10⟩] demoExtracted
      LayerType.Color := by
    rw [resolves]
    decide
  refine ⟨h, ?_⟩
  exact (c1_render_skips_unresolved (fun b _ _ _ => b + 1) 0 [c6Leaf] []
    { c6Leaf with sourceId := 9 } [⟨0, 0, 0, 10, 10⟩] demoExtracted LayerType.Color h).1

/-! ## TileabilityProcessor: `makeTileable` (canvasUtils.ts 113-141) -/

/-- One `ctx.drawImage(canvas, sx, sy, sw, sh, dx, dy, sw, sh)` call at 50%
global alpha: inside the destination rectangle each pixel becomes
`blend current sourceSample`, outside it is untouched.  `blend` is the
abstract 50%-opacity source-over compositing operator of the canvas; the
claims proved about `makeTileable` do not depend on its pixel math. -/
def blendRect {Pix : Type} (blend : Pix → Pix → Pix) (src : PixBuffer Pix)
    (sx sy sw sh dx dy : Nat) (dst : PixBuffer Pix) : PixBuffer Pix :=
  { dst with pix := fun x y =>
      if dx ≤ x ∧ x < dx + sw ∧ dy ≤ y ∧ y < dy + sh
      then blend (dst.pix x y) (src.pix (sx + (x - dx)) (sy + (y - dy)))
      else dst.pix x y }

/-- `makeTileable` (canvasUtils.ts 113-141): copy the source verbatim, then
at 50% alpha draw the top strip onto the bottom edge, the bottom strip onto
the top edge, the left strip onto the right edge and the right strip onto
the left edge — in that order, always reading from the original canvas. -/
def makeTileable {Pix : Type} (blend : Pix → Pix → Pix)
    (canvas : PixBuffer Pix) (wrapSize : Nat) : PixBuffer Pix :=
  let width := canvas.width
  let height := canvas.height
  let out0 : PixBuffer Pix := { width := width, height := height, pix := canvas.pix }
  let out1 := blendRect blend canvas 0 0 width wrapSize 0 (height - wrapSize) out0
  let out2 := blendRect blend canvas 0 (height - wrapSize) width wrapSize 0 0 out1
  let out3 := blendRect blend canvas 0 0 wrapSize height (width - wrapSize) 0 out2
  blendRect blend canvas (width - wrapSize) 0 wrapSize height 0 0 out3

/-- C9: `makeTileable` returns a buffer of the source's dimensions in which
every pixel at distance at least `W` from all four edges equals the source
pixel exactly, and each edge band (away from the corners) is the source
pixel with a single 50%-opacity blend of the opposite edge's `W`-pixel
strip: the top edge receives the bottom strip, the bottom edge the top
strip, the left edge the right strip, and the right edge the left strip. -/
theorem c9_make_tileable {Pix : Type} (blend : Pix → Pix → Pix)
    (src : PixBuffer Pix) (W : Nat) :
    (makeTileable blend src W).width = src.width ∧
    (makeTileable blend src W).height = src.height ∧
    (∀ x y, W ≤ x → x + W < src.width → W ≤ y → y + W < src.height →
      (makeTileable blend src W).pix x y = src.pix x y) ∧
    (∀ x y, y < W → y + W < src.height → W ≤ x → x + W < src.width →
      (makeTileable blend src W).pix x y =
        blend (src.pix x y) (src.pix x (src.height - W + y))) ∧
    (∀ x y, W ≤ src.height → src.height - W ≤ y → y < src.height →
      W ≤ y → W ≤ x → x + W < src.width →
      (makeTileable blend src W).pix x y =
        blend (src.pix x y) (src.pix x (y - (src.height - W)))) ∧
    (∀ x y, x < W → x + W < src.width → W ≤ y → y + W < src.height →
      (makeTileable blend src W).pix x y =
        blend (src.pix x y) (src.pix (src.width - W + x) y)) ∧
    (∀ x y, W ≤ src.width → src.width - W ≤ x → x < src.width → W ≤ x →
      W ≤ y → y + W < src.height →
      (makeTileable blend src W).pix x y =
        blend (src.pix x y) (src.pix (x - (src.width - W)) y)) := by
  refine ⟨rfl, rfl, ?_, ?_, ?_, ?_, ?_⟩
  · intro x y h1 h2 h3 h4
    simp only [makeTileable, blendRect]
    rw [if_neg (by omega), if_neg (by omega), if_neg (by omega), if_neg (by omega)]
  · intro x y h1 h2 h3 h4
    simp only [makeTileable, blendRect]
    rw [if_neg (by omega), if_neg (by omega), if_pos (by omega),
      if_neg (by omega)]
    simp
  · intro x y hW h1 h2 h3 h4 h5
    simp only [makeTileable, blendRect]
    rw [if_neg (by omega), if_neg (by omega), if_neg (by omega),
      if_pos (by omega)]
    simp
  · intro x y h1 h2 h3 h4
    simp only [makeTileable, blendRect]
    rw [if_pos (by omega), if_neg (by omega), if_neg (by omega),
      if_neg (by omega)]
    simp
  · intro x y hW h1 h2 h3 h4 h5
    simp only [makeTileable, blendRect]
    rw [if_neg (by omega), if_pos (by omega), if_neg (by omega),
      if_neg (by omega)]
    simp

/-- Closed instance of `c9_make_tileable` on the `100 × 100` demo buffer
with wrap size 2: the interior pixel `(3, 3)` is copied exactly, and the
top-edge pixel `(3, 1)` is the source pixel blended with the bottom-strip
pixel `(3, 99)`. -/
theorem c9_witness :
    (makeTileable (fun a b => 1000 * a + b) demoSource 2).pix 3 3 =
      demoSource.pix 3 3 ∧
    (makeTileable (fun a b => 1000 * a + b) demoSource 2).pix 3 1 =
      1000 * demoSource.pix 3 1 + demoSource.pix 3 99 := by
  constructor
  · exact (c9_make_tileable (fun a b => 1000 * a + b) demoSource 2).2.2.1 3 3
      (by decide) (by decide) (by decide) (by decide)
  · have h := (c9_make_tileable (fun a b => 1000 * a + b) demoSource 2).2.2.2.1 3 1
      (by decide) (by decide) (by decide) (by decide)
    simpa [demoSource] using h

/-- A transform update carrying a negative scale and an out-of-range
rotation — exactly what the transform panel would send if its inputs were
not range-limited; `updateSelectedLeaf` accepts it unchecked. -/
def c6Update : PlacedLeafUpdate := { scale := some (-1), rotation := some 400 }

/-- C6: the claim is false on the code.  `updateSelectedLeaf` merges the
update object verbatim: after updating with `scale := -1, rotation := 400`
the stored scale is `-1` (not positive) and the stored rotation is `400`
(not normalized into `[0, 360)`).  No validation or normalization exists. -/
theorem c6_counterexample :
    updateSelectedLeaf [c6Leaf] (some (LeafId.dup 0)) c6Update =
      [{ c6Leaf with scale := -1, rotation := 400 }] ∧
    ¬ (0 < ({ c6Leaf with scale := -1, rotation := 400 } : PlacedLeaf).scale) ∧
    ¬ (({ c6Leaf with scale := -1, rotation := 400 } : PlacedLeaf).rotation < 360) := by
  refine ⟨rfl, by norm_num [c6Leaf], by norm_num [c6Leaf]⟩

/-- C6 (amended): `updateSelectedLeaf` merges the given partial-transform
fields into the targeted instance's existing transform — every given field
replaces the old value, every absent field is kept — and applies no
validation at all: in particular the stored scale and rotation are exactly
the given values, with no positivity check and no normalization into
`[0, 360)`. -/
theorem c6_merge_unvalidated :
    (∀ (leaves : List PlacedLeaf) (sid : LeafId) (u : PlacedLeafUpdate)
        (i : Nat) (l : PlacedLeaf), leaves[i]? = some l →
      (updateSelectedLeaf leaves (some sid) u)[i]? =
        some (if l.id = sid then mergeUpdate l u else l)) ∧
    (∀ l u, (mergeUpdate l u).id = u.id.getD l.id ∧
      (mergeUpdate l u).sourceId = u.sourceId.getD l.sourceId ∧
      (mergeUpdate l u).x = u.x.getD l.x ∧
      (mergeUpdate l u).y = u.y.getD l.y ∧
      (mergeUpdate l u).rotation = u.rotation.getD l.rotation ∧
      (mergeUpdate l u).scale = u.scale.getD l.scale ∧
      (mergeUpdate l u).flipX = u.flipX.getD l.flipX ∧
      (mergeUpdate l u).flipY = u.flipY.getD l.flipY) := by
  constructor
  · intro leaves sid u i l hl
    simp [updateSelectedLeaf, List.getElem?_map, hl]
  · intro l u
    exact ⟨rfl, rfl, rfl, rfl, rfl, rfl, rfl, rfl⟩

/-- Closed instance of `c6_merge_unvalidated`: updating the demo instance
with `c6Update` stores scale `-1` and rotation `400` verbatim. -/
theorem c6_witness :
    ([c6Leaf][0]? = some c6Leaf) ∧
    (updateSelectedLeaf [c6Leaf] (some (LeafId.dup 0)) c6Update)[0]? =
      some (if c6Leaf.id = LeafId.dup 0 then mergeUpdate c6Leaf c6Update
        else c6Leaf) := by
  exact ⟨rfl, c6_merge_unvalidated.1 [c6Leaf] (LeafId.dup 0) c6Update 0 c6Leaf rfl⟩

/-- The instance the id-collision run starts from. -/
def c7Orig : PlacedLeaf :=
  { id := LeafId.bulk 0 0, sourceId := 0, x := 100, y := 100, rotation := 0,
    scale := 1, flipX := false, flipY := false }

/-- The one-instance placement model the id-collision run starts from. -/
def c7Start : List PlacedLeaf := [c7Orig]

/-- First duplicate, at `Date.now() = 5`. -/
def c7Step1 : List PlacedLeaf × Option LeafId :=
  duplicateSelectedLeaf c7Start (some (LeafId.bulk 0 0)) 5

/-- Second duplicate of the (auto-selected) first clone, still at
`Date.now() = 5` — i.e. within the same millisecond. -/
def c7Step2 : List PlacedLeaf × Option LeafId :=
  duplicateSelectedLeaf c7Step1.1 c7Step1.2 5

/-- C7 is right and the code is wrong: `duplicateSelectedLeaf` derives the
clone's id from `Date.now()` alone (`leaf_{t}`), so two duplicates executed
within the same millisecond receive the same id.  Evaluating the code at
that input: after two duplicates at timestamp 5 the model holds ids
`[leaf_0_0, leaf_5, leaf_5]`, which are not pairwise distinct. -/
theorem c7_duplicate_id_collision :
    c7Step2.1.map PlacedLeaf.id = [LeafId.bulk 0 0, LeafId.dup 5, LeafId.dup 5] ∧
    ¬ (c7Step2.1.map PlacedLeaf.id).Nodup := by
  refine ⟨rfl, by decide⟩

/-- C10: instance-targeted operations are frame-preserving.
`updateSelectedLeaf` keeps the length and leaves every instance whose id is
not the targeted id unchanged at its position; `deleteSelectedLeaf` keeps a
subsequence (relative order preserved) containing exactly the instances
whose id is not the targeted id, each unchanged; `duplicateSelectedLeaf`
appends the clone at the end of the unchanged original sequence (topmost
z-order) and selects it. -/
theorem c10_frame_effects :
    (∀ (leaves : List PlacedLeaf) (sid : LeafId) (u : PlacedLeafUpdate),
      (updateSelectedLeaf leaves (some sid) u).length = leaves.length ∧
      ∀ (i : Nat) (l : PlacedLeaf), leaves[i]? = some l → l.id ≠ sid →
        (updateSelectedLeaf leaves (some sid) u)[i]? = some l) ∧
    (∀ (leaves : List PlacedLeaf) (sid : LeafId),
      (deleteSelectedLeaf leaves (some sid)).Sublist leaves ∧
      ∀ l, l ∈ deleteSelectedLeaf leaves (some sid) ↔ l ∈ leaves ∧ l.id ≠ sid) ∧
    (∀ (leaves : List PlacedLeaf) (sid : LeafId) (now : Nat)
        (original : PlacedLeaf),
      leaves.find? (fun l => l.id == sid) = some original →
      duplicateSelectedLeaf leaves (some sid) now =
        (leaves ++ [cloneLeaf original now], some (LeafId.dup now))) := by
  refine ⟨fun leaves sid u => ⟨by simp [updateSelectedLeaf], ?_⟩,
    fun leaves sid => ⟨?_, ?_⟩, ?_⟩
  · intro i l hl hne
    simp [updateSelectedLeaf, List.getElem?_map, hl, hne]
  · exact List.filter_sublist leaves
  · intro l
    simp [deleteSelectedLeaf, List.mem_filter]
  · intro leaves sid now original hfind
    simp [duplicateSelectedLeaf, hfind, cloneLeaf]

/-- Closed instance of `c10_frame_effects`: in a two-instance model, updating
the second instance leaves the first untouched, deleting the second keeps
exactly the first, and duplicating the second appends its clone at the end. -/
theorem c10_witness :
    ([c6Leaf, c7Orig][0]? = some c6Leaf) ∧
    (updateSelectedLeaf [c6Leaf, c7Orig] (some (LeafId.bulk 0 0))
      c6Update)[0]? = some c6Leaf ∧
    (∀ l, l ∈ deleteSelectedLeaf [c6Leaf, c7Orig]
        (some (LeafId.bulk 0 0)) ↔
      l ∈ [c6Leaf, c7Orig] ∧ l.id ≠ LeafId.bulk 0 0) ∧
    duplicateSelectedLeaf [c6Leaf, c7Orig] (some (LeafId.bulk 0 0)) 9 =
      ([c6Leaf, c7Orig] ++ [cloneLeaf c7Orig 9],
        some (LeafId.dup 9)) := by
  refine ⟨rfl, ?_, ?_, ?_⟩
  · exact (c10_frame_effects.1 [c6Leaf, c7Orig] (LeafId.bulk 0 0)
      c6Update).2 0 c6Leaf rfl (by decide)
  · exact (c10_frame_effects.2.1 [c6Leaf, c7Orig] (LeafId.bulk 0 0)).2
  · exact c10_frame_effects.2.2 [c6Leaf, c7Orig] (LeafId.bulk 0 0) 9
      c7Orig rfl

/-- C2: the claim is false on the code.  For a `LeafBounds` touching the
left/top image edge (`x = y = 0`, size `10 × 10`, inside a `100 × 100`
source) and padding `2`, `extractLeafRegion` keeps the full padded size
`10 + 2·2 = 14` measured from the clamped origin `0`, while the rectangle
described by the claim (expand by 2 on every side, then clamp to the source)
is only `12` wide and `12` tall: the two disagree. -/
theorem c2_counterexample :
    (extractLeafRegion demoSource ⟨0, 0, 0, 10, 10⟩ 2).width = 14 ∧
    (extractExpandClamp demoSource ⟨0, 0, 0, 10, 10⟩ 2).width = 12 ∧
    ¬ (extractLeafRegion demoSource ⟨0, 0, 0, 10, 10⟩ 2).width =
        (extractExpandClamp demoSource ⟨0, 0, 0, 10, 10⟩ 2).width := by
  refine ⟨by decide, by decide, by decide⟩

/-- C2 (amended): for every `LeafBounds` lying within the source and every
padding `p ≥ 0`, `extractLeafRegion` returns the rectangle whose origin is
`(max 0 (x − p), max 0 (y − p))` (never negative) and whose size is the full
padded size `bounds + 2p` clamped only against the space remaining from that
origin — near the left/top edge this keeps the whole `2p` padding and so can
extend past the right/bottom of the expand-then-clamp rectangle.  The crop
never extends past the source dimensions, and its content is a verbatim copy
of the source pixels there; no pixel outside the source is ever read. -/
theorem extractLeafRegion_clamped {Pix : Type} (src : PixBuffer Pix)
    (b : LeafBounds) (p : Nat)
    (hx : b.x + b.width ≤ src.width) (hy : b.y + b.height ≤ src.height) :
    (extractLeafRegion src b p).width = min (b.width + 2 * p) (src.width - (b.x - p)) ∧
    (extractLeafRegion src b p).height = min (b.height + 2 * p) (src.height - (b.y - p)) ∧
    (b.x - p) + (extractLeafRegion src b p).width ≤ src.width ∧
    (b.y - p) + (extractLeafRegion src b p).height ≤ src.height ∧
    ∀ i j, i < (extractLeafRegion src b p).width →
      j < (extractLeafRegion src b p).height →
      (extractLeafRegion src b p).pix i j = src.pix ((b.x - p) + i) ((b.y - p) + j) ∧
      (b.x - p) + i < src.width ∧ (b.y - p) + j < src.height := by
  have hxw : (extractLeafRegion src b p).width =
      min (b.width + 2 * p) (src.width - (b.x - p)) := by
    simp only [extractLeafRegion]
    omega
  have hyh : (extractLeafRegion src b p).height =
      min (b.height + 2 * p) (src.height - (b.y - p)) := by
    simp only [extractLeafRegion]
    omega
  have hox : (max 0 ((b.x : Int) - p)).toNat = b.x - p := by omega
  have hoy : (max 0 ((b.y : Int) - p)).toNat = b.y - p := by omega
  refine ⟨hxw, hyh, by omega, by omega, ?_⟩
  intro i j hi hj
  refine ⟨?_, by omega, by omega⟩
  show src.pix ((max 0 ((b.x : Int) - p)).toNat + i) ((max 0 ((b.y : Int) - p)).toNat + j) =
    src.pix ((b.x - p) + i) ((b.y - p) + j)
  rw [hox, hoy]

/-- Closed instance of `extractLeafRegion_clamped`: a `10 × 10` bounds at
`(5, 5)` inside the `100 × 100` demo source with padding `2` is cropped to a
`14 × 14` rectangle at origin `(3, 3)`, copied verbatim. -/
theorem c2_witness :
    (⟨1, 5, 5, 10, 10⟩ : LeafBounds).x + (⟨1, 5, 5, 10, 10⟩ : LeafBounds).width ≤
        demoSource.width ∧
    (extractLeafRegion demoSource ⟨1, 5, 5, 10, 10⟩ 2).width = 14 ∧
    (extractLeafRegion demoSource ⟨1, 5, 5, 10, 10⟩ 2).pix 0 0 = demoSource.pix 3 3 := by
  have h := extractLeafRegion_clamped demoSource ⟨1, 5, 5, 10, 10⟩ 2
    (by decide) (by decide)
  refine ⟨by decide, ?_, ?_⟩
  · rw [h.1]; decide
  · exact (h.2.2.2.2 0 0 (by rw [h.1]; decide) (by rw [h.2.1]; decide)).1

/-! ## LeafDetector

`leafDetection.ts` (`detectLeaves`) is not among the provided sources —
only its call sites in `LeafTextureEditor.tsx` are — so the detector is
modelled from the spec (§4.1). -/

/-- Flattened row-major index of pixel `(x, y)` in a `w`-wide image. -/
def pixIdx (w x y : Nat) : Nat := y * w + x

/-- The 4-connected in-bounds neighbours of `(x, y)` (up, down, left, right
only — diagonal touches do not merge components). -/
def neighbors4 (w h x y : Nat) : List (Nat × Nat) :=
  (if 0 < x then [(x - 1, y)] else []) ++
    (if x + 1 < w then [(x + 1, y)] else []) ++
    (if 0 < y then [(x, y - 1)] else []) ++
    (if y + 1 < h then [(x, y + 1)] else [])

/-- Fuel-bounded flood fill of one 4-connected foreground component:
repeatedly pop a pixel from the work stack, skip it if already visited or
background, otherwise mark it visited, append it to the component and push
its neighbours.  Each step consumes one unit of fuel; `detectLeaves` passes
more fuel than any component can need, so the fill always completes. -/
def flood (fg : Nat → Nat → Bool) (w h : Nat) :
    Nat → List (Nat × Nat) → List Bool → List (Nat × Nat) →
      List Bool × List (Nat × Nat)
  | 0, _, visited, comp => (visited, comp)
  | _ + 1, [], visited, comp => (visited, comp)
  | fuel + 1, (x, y) :: stack, visited, comp =>
    if visited.getD (pixIdx w x y) false || !fg x y then
      flood fg w h fuel stack visited comp
    else
      flood fg w h fuel (neighbors4 w h x y ++ stack)
        (visited.set (pixIdx w x y) true) (comp ++ [(x, y)])

/-- A component's tight bounding box, in raw `min/max` corner form. -/
structure RawBox where
  minX : Nat
  minY : Nat
  maxX : Nat
  maxY : Nat
deriving DecidableEq, Repr

/-- Tight bounding box of a component discovered from seed `(x, y)`. -/
def boxOf (x y : Nat) (comp : List (Nat × Nat)) : RawBox :=
  { minX := comp.foldl (fun m p => min m p.1) x
    minY := comp.foldl (fun m p => min m p.2) y
    maxX := comp.foldl (fun m p => max m p.1) x
    maxY := comp.foldl (fun m p => max m p.2) y }

/-- The row-major component scan: walk the pixel coordinates in row-major
order; at each unvisited foreground pixel flood-fill its component, and keep
its bounding box if its pixel count reaches `minArea`.  Surviving boxes are
listed in first-discovery order. -/
def scanGo (fg : Nat → Nat → Bool) (w h minArea : Nat) :
    List (Nat × Nat) → List Bool → List RawBox
  | [], _ => []
  | (x, y) :: rest, visited =>
    if !visited.getD (pixIdx w x y) false && fg x y then
      let r := flood fg w h (w * h * 5 + 1) [(x, y)] visited []
      if minArea ≤ r.2.length then
        boxOf x y r.2 :: scanGo fg w h minArea rest r.1
      else
        scanGo fg w h minArea rest r.1
    else
      scanGo fg w h minArea rest visited

/-- The row-major list of all pixel coordinates of a `w × h` image. -/
def rowMajor (w h : Nat) : List (Nat × Nat) :=
  (List.range h).flatMap fun y => (List.range w).map fun x => (x, y)

/-- Modelled from the spec: `detectLeaves` of the missing `leafDetection.ts`
(spec §4.1).  Binarize the selected channel — the alpha sample when
`useAlpha` is set, otherwise the red sample — as `sample > threshold`,
label 4-connected components of the foreground mask by a row-major scan,
compute each component's tight bounding rectangle and pixel count, discard
components with fewer than `minArea` pixels, and assign ids `0..k-1` in the
order the surviving components were first discovered. -/
def detectLeaves (w h : Nat) (img : Nat → Nat → RGBA)
    (threshold minArea : Nat) (useAlpha : Bool) : List LeafBounds :=
  let fg : Nat → Nat → Bool := fun x y =>
    threshold < (if useAlpha then (img x y).a else (img x y).r)
  let boxes := scanGo fg w h minArea (rowMajor w h) (List.replicate (w * h) false)
  boxes.enum.map fun p =>
    { id := p.1, x := p.2.minX, y := p.2.minY,
      width := p.2.maxX - p.2.minX + 1, height := p.2.maxY - p.2.minY + 1 }

/-- A concrete 8 × 8 opacity mask: two disjoint fully-opaque 2 × 2 squares
at `(1, 1)` and `(5, 5)`, everything else black. -/
def demoMask : Nat → Nat → RGBA := fun x y =>
  if (1 ≤ x ∧ x ≤ 2 ∧ 1 ≤ y ∧ y ≤ 2) ∨ (5 ≤ x ∧ x ≤ 6 ∧ 5 ≤ y ∧ y ≤ 6)
  then ⟨255, 255, 255, 255⟩ else ⟨0, 0, 0, 0⟩

/-- C5: leaf detection is deterministic — it is a pure function of the image
samples, the threshold, the `minArea`, and the channel source, so two runs
with identical inputs produce bit-identical ordered `LeafBounds` lists; and
on the concrete two-square demo mask the ordered output is exactly the two
expected boxes, ids assigned in row-major discovery order. -/
theorem c5_detection_deterministic :
    (∀ (w₁ h₁ t₁ m₁ : Nat) (img₁ : Nat → Nat → RGBA) (ua₁ : Bool)
        (w₂ h₂ t₂ m₂ : Nat) (img₂ : Nat → Nat → RGBA) (ua₂ : Bool),
      w₁ = w₂ → h₁ = h₂ → img₁ = img₂ → t₁ = t₂ → m₁ = m₂ → ua₁ = ua₂ →
      detectLeaves w₁ h₁ img₁ t₁ m₁ ua₁ = detectLeaves w₂ h₂ img₂ t₂ m₂ ua₂) ∧
    detectLeaves 8 8 demoMask 128 3 false =
      [⟨0, 1, 1, 2, 2⟩, ⟨1, 5, 5, 2, 2⟩] := by
  refine ⟨?_, by decide⟩
  rintro w₁ h₁ t₁ m₁ img₁ ua₁ w₂ h₂ t₂ m₂ img₂ ua₂ rfl rfl rfl rfl rfl rfl
  rfl

/-- Closed instance of `c5_detection_deterministic`: two runs on the
concrete demo mask with identical parameters agree. -/
theorem c5_witness :
    demoMask = demoMask ∧
    detectLeaves 8 8 demoMask 128 3 false =
      detectLeaves 8 8 demoMask 128 3 false :=
  ⟨rfl, c5_detection_deterministic.1 8 8 128 3 demoMask false 8 8 128 3
    demoMask false rfl rfl rfl rfl rfl rfl⟩

end Worldify
